import Mathlib

/-!
Verification of the `noUselessTypeConstraint` analyzer rule
(`crates/biome_js_analyze/src/analyzers/complexity/no_useless_type_constraint.rs`)
against the natural-language specification of the rule-matching and
fix-application framework it instantiates.

The rule file is embedded directly.  The framework pieces it calls into
(the rowan-style syntax tree, the query engine, `prev_sibling`,
`trim_trailing_trivia`, the batch-mutation commit) are not part of the
provided sources, so they are modelled from the specification's
description of the data model (immutable trivia-preserving tree, batch of
replace/remove edits committed against one snapshot).
-/

/-- Modelled from the spec: a terminal token carries its literal text plus
leading and trailing trivia, so that concatenating all tokens in tree
order reproduces the original source text exactly. -/
structure Token where
  leading : List String
  text : String
  trailing : List String
  deriving DecidableEq, Repr

/-- Modelled from the spec: the closed tagged union of syntactic node kinds
needed by the rule and its worked examples (the spec's design note asks for
a closed sum type of node kinds with exhaustive matching). -/
inductive SyntaxKind where
  | tsTypeConstraintClause
  | tsTypeParameterName
  | tsTypeParameter
  | tsTypeParameterList
  | tsTypeParameters
  | tsAnyType
  | tsUnknownType
  | tsReferenceType
  | tsInterfaceDeclaration
  | tsTypeAliasDeclaration
  | jsClassDeclaration
  | jsMethodClassMember
  | jsArrowFunctionExpression
  | jsFunctionDeclaration
  | jsVariableStatement
  | jsModule
  | jsBogus
  deriving DecidableEq, Repr

/-- Modelled from the spec: a syntax element is either a terminal token or
an interior node with a kind tag and an ordered sequence of children;
the tree is immutable and trivia-preserving. -/
inductive SyntaxElement where
  | token (t : Token)
  | node (kind : SyntaxKind) (children : List SyntaxElement)

mutual

def SyntaxElement.decEq : (a b : SyntaxElement) → Decidable (a = b)
  | .token t1, .token t2 =>
    if h : t1 = t2 then isTrue (by rw [h])
    else isFalse (by intro hh; injection hh; contradiction)
  | .token _, .node _ _ => isFalse (by intro h; exact SyntaxElement.noConfusion h)
  | .node _ _, .token _ => isFalse (by intro h; exact SyntaxElement.noConfusion h)
  | .node k1 cs1, .node k2 cs2 =>
    if h1 : k1 = k2 then
      match SyntaxElement.decEqList cs1 cs2 with
      | isTrue h2 => isTrue (by rw [h1, h2])
      | isFalse h2 => isFalse (by intro hh; injection hh with e1 e2; exact h2 e2)
    else isFalse (by intro hh; injection hh with e1 e2; exact h1 e1)

def SyntaxElement.decEqList : (as bs : List SyntaxElement) → Decidable (as = bs)
  | [], [] => isTrue rfl
  | [], _ :: _ => isFalse (by intro h; exact List.noConfusion h)
  | _ :: _, [] => isFalse (by intro h; exact List.noConfusion h)
  | a :: as, b :: bs =>
    match SyntaxElement.decEq a b, SyntaxElement.decEqList as bs with
    | isTrue h1, isTrue h2 => isTrue (by rw [h1, h2])
    | isFalse h1, _ => isFalse (by intro hh; injection hh with e1 e2; exact h1 e1)
    | _, isFalse h2 => isFalse (by intro hh; injection hh with e1 e2; exact h2 e2)

end

instance : DecidableEq SyntaxElement := SyntaxElement.decEq

namespace SyntaxElement

/-- Total width (in bytes) of a token including its trivia. -/
def tokenWidth (t : Token) : Nat :=
  (t.leading.map String.length).sum + t.text.length + (t.trailing.map String.length).sum

mutual

/-- Full width of an element, trivia included. -/
def fullWidth : SyntaxElement → Nat
  | .token t => tokenWidth t
  | .node _ cs => fullWidthList cs

def fullWidthList : List SyntaxElement → Nat
  | [] => 0
  | c :: rest => fullWidth c + fullWidthList rest

end

mutual

/-- Render an element back to source text (the lossless round-trip of the
spec's token invariant). -/
def render : SyntaxElement → String
  | .token t => String.join t.leading ++ t.text ++ String.join t.trailing
  | .node _ cs => renderList cs

def renderList : List SyntaxElement → String
  | [] => ""
  | c :: rest => render c ++ renderList rest

end

mutual

/-- Width of the leading trivia of an element's first token; `none` when the
element contains no token. -/
def leadingTriviaWidth : SyntaxElement → Option Nat
  | .token t => some (t.leading.map String.length).sum
  | .node _ cs => leadingTriviaWidthList cs

def leadingTriviaWidthList : List SyntaxElement → Option Nat
  | [] => none
  | c :: rest =>
    match leadingTriviaWidth c with
    | some n => some n
    | none => leadingTriviaWidthList rest

end

mutual

/-- Width of the trailing trivia of an element's last token; `none` when the
element contains no token. -/
def trailingTriviaWidth : SyntaxElement → Option Nat
  | .token t => some (t.trailing.map String.length).sum
  | .node _ cs => trailingTriviaWidthList cs

def trailingTriviaWidthList : List SyntaxElement → Option Nat
  | [] => none
  | c :: rest =>
    match trailingTriviaWidthList rest with
    | some n => some n
    | none => trailingTriviaWidth c

end

/-- Modelled from the spec: `text_trimmed_range` of an element that starts at
absolute offset `off` — its range with the leading and trailing trivia
excluded. -/
def textTrimmedRange (off : Nat) (e : SyntaxElement) : Nat × Nat :=
  (off + (leadingTriviaWidth e).getD 0,
   off + fullWidth e - (trailingTriviaWidth e).getD 0)

mutual

/-- Modelled from the spec: `trim_trailing_trivia` — a copy of the element
whose last token's trailing trivia is removed; absence (no token at all)
propagates as `none`, never a crash. -/
def trimTrailingTrivia : SyntaxElement → Option SyntaxElement
  | .token t => some (.token { t with trailing := [] })
  | .node k cs => (trimTrailingTriviaList cs).map (fun cs2 => .node k cs2)

def trimTrailingTriviaList : List SyntaxElement → Option (List SyntaxElement)
  | [] => none
  | c :: rest =>
    match trimTrailingTriviaList rest with
    | some rest2 => some (c :: rest2)
    | none => (trimTrailingTrivia c).map (fun c2 => c2 :: rest)

end

mutual

/-- Modelled from the spec: replace the first (pre-order) occurrence of
`old` inside `e` with `new`; a stale reference (no occurrence) fails with
`none` rather than silently applying to the wrong location. -/
def replaceFirst (old new e : SyntaxElement) : Option SyntaxElement :=
  if e = old then some new
  else
    match e with
    | .token _ => none
    | .node k cs => (replaceFirstList old new cs).map (fun cs2 => .node k cs2)

def replaceFirstList (old new : SyntaxElement) :
    List SyntaxElement → Option (List SyntaxElement)
  | [] => none
  | c :: rest =>
    match replaceFirst old new c with
    | some c2 => some (c2 :: rest)
    | none => (replaceFirstList old new rest).map (fun rest2 => c :: rest2)

end

mutual

/-- Modelled from the spec: remove the first (pre-order) occurrence of
`target` inside `e`, dropping its whole subtree with its attached trivia
(removal does not relocate trivia); `none` on a stale reference. -/
def removeFirst (target e : SyntaxElement) : Option SyntaxElement :=
  match e with
  | .token _ => none
  | .node k cs => (removeFirstList target cs).map (fun cs2 => .node k cs2)

def removeFirstList (target : SyntaxElement) :
    List SyntaxElement → Option (List SyntaxElement)
  | [] => none
  | c :: rest =>
    if c = target then some rest
    else
      match removeFirst target c with
      | some c2 => some (c2 :: rest)
      | none => (removeFirstList target rest).map (fun rest2 => c :: rest2)

end

end SyntaxElement

/-- Modelled from the spec: one pending operation of a mutation batch. -/
inductive MutationOp where
  | replaceElementDiscardTrivia (old new : SyntaxElement)
  | removeNode (target : SyntaxElement)
  deriving DecidableEq

/-- Modelled from the spec: a mutation batch accumulates pending operations
against the one tree snapshot it was begun from. -/
structure BatchMutation where
  root : SyntaxElement
  edits : List MutationOp
  deriving DecidableEq

namespace BatchMutation

/-- Modelled from the spec: `root.begin()` — an empty batch against the
snapshot `root`. -/
def begin (root : SyntaxElement) : BatchMutation := { root := root, edits := [] }

/-- Modelled from the spec: record a replace operation that substitutes
`new` for `old` without transferring the old element's trivia. -/
def replaceElementDiscardTrivia (m : BatchMutation) (old new : SyntaxElement) :
    BatchMutation :=
  { m with edits := m.edits ++ [MutationOp.replaceElementDiscardTrivia old new] }

/-- Modelled from the spec: record a removal of `target`. -/
def removeNode (m : BatchMutation) (target : SyntaxElement) : BatchMutation :=
  { m with edits := m.edits ++ [MutationOp.removeNode target] }

/-- Modelled from the spec: apply one pending operation to a tree; a stale
reference makes the whole commit abort. -/
def applyOp (t : SyntaxElement) : MutationOp → Option SyntaxElement
  | MutationOp.replaceElementDiscardTrivia old new => SyntaxElement.replaceFirst old new t
  | MutationOp.removeNode target => SyntaxElement.removeFirst target t

/-- Modelled from the spec: committing a batch applies its operations in
order to the snapshot it was begun from, producing a brand-new tree;
any stale reference aborts with `none`, leaving no tree. -/
def commit (m : BatchMutation) : Option SyntaxElement :=
  m.edits.foldlM applyOp m.root

end BatchMutation

/-- The context handed to the rule for one matched node: the snapshot root
(`ctx.root()`), the matched constraint-clause node (`ctx.query()`), the
node's previous sibling node as the framework would resolve it, and the
absolute offset at which the matched node starts (node ranges are
absolute in the real tree; here they are carried alongside). -/
structure RuleContext where
  root : SyntaxElement
  clause : SyntaxElement
  prevSibling : Option SyntaxElement
  clauseOffset : Nat
  deriving DecidableEq

/-- Is this element an interior node (as opposed to a token)? -/
def SyntaxElement.isNode : SyntaxElement → Bool
  | .node _ _ => true
  | .token _ => false

mutual

/-- Modelled from the spec: the query engine's traversal — walk the tree in
pre-order, source order, and for every node of kind
`tsTypeConstraintClause` build a `RuleContext` recording its previous
sibling node (tokens are skipped, as `prev_sibling` does) and its
absolute start offset.  Produces an empty list, never an error, when
nothing matches. -/
def collectFrom (root : SyntaxElement) (off : Nat) (e : SyntaxElement) :
    List RuleContext :=
  match e with
  | .token _ => []
  | .node _ cs => collectChildren root off none cs

def collectChildren (root : SyntaxElement) (off : Nat)
    (prev : Option SyntaxElement) : List SyntaxElement → List RuleContext
  | [] => []
  | c :: rest =>
    (match c with
     | .node SyntaxKind.tsTypeConstraintClause _ =>
       [{ root := root, clause := c, prevSibling := prev, clauseOffset := off }]
     | _ => []) ++
    collectFrom root off c ++
    collectChildren root (off + c.fullWidth)
      (if c.isNode then some c else prev) rest

end

/-- All rule contexts the query engine produces for a tree (the root itself
is also matched when it is a constraint clause, with no previous
sibling). -/
def collectCtxs (root : SyntaxElement) : List RuleContext :=
  (match root with
   | .node SyntaxKind.tsTypeConstraintClause _ =>
     [{ root := root, clause := root, prevSibling := none, clauseOffset := 0 }]
   | _ => []) ++ collectFrom root 0 root

/-- `FixKind` of the rule metadata (`biome_analyze::FixKind`). -/
inductive FixKind where
  | none
  | safe
  | unsafe2
  deriving DecidableEq

/-- `ActionCategory` (`biome_analyze::ActionCategory`), restricted to the
variants the spec names. -/
inductive ActionCategory where
  | quickFix
  | refactor
  | source
  deriving DecidableEq

/-- `Applicability` (`biome_diagnostics::Applicability`). -/
inductive Applicability where
  | always
  | maybeIncorrect
  deriving DecidableEq

/-- A rule diagnostic: category tag, source range, primary message, notes
(`RuleDiagnostic::new(...).note(...)` appends to `notes`). -/
structure RuleDiagnostic where
  category : String
  range : Nat × Nat
  message : String
  notes : List String
  deriving DecidableEq

/-- `JsRuleAction`: category, applicability, message and the one mutation
batch. -/
structure JsRuleAction where
  category : ActionCategory
  applicability : Applicability
  message : String
  mutation : BatchMutation
  deriving DecidableEq

/-- Rule metadata as declared by `declare_rule!`. -/
structure RuleMetadata where
  version : String
  name : String
  recommended : Bool
  fixKind : FixKind

namespace NoUselessTypeConstraint

/-- The `declare_rule!` block of `NoUselessTypeConstraint`. -/
def metadata : RuleMetadata :=
  { version := "1.0.0"
    name := "noUselessTypeConstraint"
    recommended := true
    fixKind := FixKind.safe }

/-- Does this syntax kind cast to `AnyTsType` (the union of TS type nodes,
restricted to the kinds present in this model)? -/
def isAnyTsTypeKind : SyntaxKind → Bool
  | SyntaxKind.tsAnyType => true
  | SyntaxKind.tsUnknownType => true
  | SyntaxKind.tsReferenceType => true
  | _ => false

/-- Modelled from the spec: `TsTypeConstraintClause::ty()` — the child
naming the constraint's type (slot 1, after the `extends` token); a
missing or errored sub-node propagates absence (`Err` mapped through
`.ok()` to `None`), never a panic. -/
def tyOf (e : SyntaxElement) : Option SyntaxElement :=
  match e with
  | .node SyntaxKind.tsTypeConstraintClause cs =>
    match cs[1]? with
    | some (SyntaxElement.node k kcs) =>
      if isAnyTsTypeKind k then some (SyntaxElement.node k kcs) else none
    | _ => none
  | _ => none

/-- `NoUselessTypeConstraint::run`: signal iff the constraint's type is
exactly `TsAnyType` or `TsUnknownType` (`matches!(...).then_some(())`). -/
def run (ctx : RuleContext) : Option Unit :=
  (tyOf ctx.clause).bind fun ty =>
    match ty with
    | .node SyntaxKind.tsAnyType _ => some ()
    | .node SyntaxKind.tsUnknownType _ => some ()
    | _ => none

/-- `NoUselessTypeConstraint::diagnostic`: always `Some`, located at the
clause's trimmed text range, with the fixed message and one note. -/
def diagnostic (ctx : RuleContext) : Option RuleDiagnostic :=
  some
    { category := "lint/complexity/noUselessTypeConstraint"
      range := SyntaxElement.textTrimmedRange ctx.clauseOffset ctx.clause
      message := "Constraining a type parameter to any or unknown is useless."
      notes := ["All types are subtypes of any and unknown."] }

/-- `NoUselessTypeConstraint::action`: begin a batch on the root, require a
previous sibling (`?`), replace it by its trailing-trivia-trimmed copy
(`?` again on the trim), remove the clause, and wrap the batch in an
always-applicable quick fix. -/
def action (ctx : RuleContext) : Option JsRuleAction :=
  let mutation := BatchMutation.begin ctx.root
  match ctx.prevSibling with
  | none => none
  | some prev =>
    match prev.trimTrailingTrivia with
    | none => none
    | some trimmed =>
      let mutation := mutation.replaceElementDiscardTrivia prev trimmed
      let mutation := mutation.removeNode ctx.clause
      some
        { category := ActionCategory.quickFix
          applicability := Applicability.always
          message := "Remove the constraint."
          mutation := mutation }

/-- The signalled contexts of a whole tree: matched contexts whose `run`
produces a signal. -/
def signals (root : SyntaxElement) : List RuleContext :=
  (collectCtxs root).filter fun ctx => (run ctx).isSome

end NoUselessTypeConstraint

/-! Concrete input trees for the worked examples of the spec: the six
declaration shapes of the rule's documentation, parametrized by the
constraint's type node, plus the two valid examples. -/

/-- Shorthand token constructor. -/
def tok (l : List String) (s : String) (r : List String) : SyntaxElement :=
  SyntaxElement.token { leading := l, text := s, trailing := r }

/-- An identifier wrapped in a binding node. -/
def ident (s : String) (r : List String) : SyntaxElement :=
  SyntaxElement.node SyntaxKind.tsReferenceType [tok [] s r]

/-- The `any` type node. -/
def anyTy : SyntaxElement := SyntaxElement.node SyntaxKind.tsAnyType [tok [] "any" []]

/-- The `unknown` type node. -/
def unknownTy : SyntaxElement :=
  SyntaxElement.node SyntaxKind.tsUnknownType [tok [] "unknown" []]

/-- A named reference type `SomeType`. -/
def someTypeTy : SyntaxElement :=
  SyntaxElement.node SyntaxKind.tsReferenceType [tok [] "SomeType" []]

/-- The type parameter name node `T ` (trailing space before `extends`). -/
def nameT : SyntaxElement :=
  SyntaxElement.node SyntaxKind.tsTypeParameterName [tok [] "T" [" "]]

/-- A constraint clause `extends <ty>`. -/
def clauseOf (ty : SyntaxElement) : SyntaxElement :=
  SyntaxElement.node SyntaxKind.tsTypeConstraintClause [tok [] "extends" [" "], ty]

/-- A constrained type parameter `T extends <ty>`. -/
def tparamCon (ty : SyntaxElement) : SyntaxElement :=
  SyntaxElement.node SyntaxKind.tsTypeParameter [nameT, clauseOf ty]

/-- Type parameters `<T extends ty>` with the given trailing trivia after
`>`. -/
def tparamsCon (ty : SyntaxElement) (r : List String) : SyntaxElement :=
  SyntaxElement.node SyntaxKind.tsTypeParameters
    [tok [] "<" [],
     SyntaxElement.node SyntaxKind.tsTypeParameterList [tparamCon ty],
     tok [] ">" r]

/-- `interface Foo<T extends ty> {}` -/
def interfaceTree (ty : SyntaxElement) : SyntaxElement :=
  SyntaxElement.node SyntaxKind.tsInterfaceDeclaration
    [tok [] "interface" [" "], ident "Foo" [], tparamsCon ty [" "],
     tok [] "\x7b" [], tok [] "\x7d" []]

/-- `type Bar<T extends ty> = {};` -/
def typeAliasTree (ty : SyntaxElement) : SyntaxElement :=
  SyntaxElement.node SyntaxKind.tsTypeAliasDeclaration
    [tok [] "type" [" "], ident "Bar" [], tparamsCon ty [" "],
     tok [] "=" [" "], tok [] "\x7b" [], tok [] "\x7d" [], tok [] ";" []]

/-- `class Baz<T extends ty> {}` -/
def classTree (ty : SyntaxElement) : SyntaxElement :=
  SyntaxElement.node SyntaxKind.jsClassDeclaration
    [tok [] "class" [" "], ident "Baz" [], tparamsCon ty [" "],
     tok [] "\x7b" [], tok [] "\x7d" []]

/-- `class Baz { qux<T extends ty>() {} }` -/
def methodTree (ty : SyntaxElement) : SyntaxElement :=
  SyntaxElement.node SyntaxKind.jsClassDeclaration
    [tok [] "class" [" "], ident "Baz" [" "], tok [] "\x7b" [" "],
     SyntaxElement.node SyntaxKind.jsMethodClassMember
       [ident "qux" [], tparamsCon ty [],
        tok [] "(" [], tok [] ")" [" "], tok [] "\x7b" [], tok [] "\x7d" [" "]],
     tok [] "\x7d" []]

/-- `const Quux = <T extends ty>() => {};` -/
def arrowTree (ty : SyntaxElement) : SyntaxElement :=
  SyntaxElement.node SyntaxKind.jsVariableStatement
    [tok [] "const" [" "], ident "Quux" [" "], tok [] "=" [" "],
     SyntaxElement.node SyntaxKind.jsArrowFunctionExpression
       [tparamsCon ty [],
        tok [] "(" [], tok [] ")" [" "], tok [] "=>" [" "],
        tok [] "\x7b" [], tok [] "\x7d" []],
     tok [] ";" []]

/-- `function Quuz<T extends ty>() {}` -/
def functionTree (ty : SyntaxElement) : SyntaxElement :=
  SyntaxElement.node SyntaxKind.jsFunctionDeclaration
    [tok [] "function" [" "], ident "Quuz" [], tparamsCon ty [],
     tok [] "(" [], tok [] ")" [" "], tok [] "\x7b" [], tok [] "\x7d" []]

/-- The six declaration shapes of the rule's documentation, with the given
constraint type. -/
def shapeTrees (ty : SyntaxElement) : List SyntaxElement :=
  [interfaceTree ty, typeAliasTree ty, classTree ty,
   methodTree ty, arrowTree ty, functionTree ty]

/-- `interface Foo<T> {}` — a type parameter with no constraint clause. -/
def interfaceNoConTree : SyntaxElement :=
  SyntaxElement.node SyntaxKind.tsInterfaceDeclaration
    [tok [] "interface" [" "], ident "Foo" [],
     SyntaxElement.node SyntaxKind.tsTypeParameters
       [tok [] "<" [],
        SyntaxElement.node SyntaxKind.tsTypeParameterList
          [SyntaxElement.node SyntaxKind.tsTypeParameter
            [SyntaxElement.node SyntaxKind.tsTypeParameterName [tok [] "T" []]]],
        tok [] ">" [" "]],
     tok [] "\x7b" [], tok [] "\x7d" []]

/-- The rule context the query produces for `interface Foo<T extends any> {}`:
the clause starts at offset 16, its previous sibling is the parameter
name node. -/
def ctxFooAny : RuleContext :=
  { root := interfaceTree anyTy
    clause := clauseOf anyTy
    prevSibling := some nameT
    clauseOffset := 16 }

/-- The rule context the query produces for
`const Quux = <T extends any>() => {};` (same clause, same previous
sibling and, coincidentally, the same start offset as in the interface
shape, but a different snapshot). -/
def ctxArrowAny : RuleContext :=
  { root := arrowTree anyTy
    clause := clauseOf anyTy
    prevSibling := some nameT
    clauseOffset := 16 }

/-- The parameter name node after its trailing trivia is trimmed. -/
def nameTTrimmed : SyntaxElement :=
  SyntaxElement.node SyntaxKind.tsTypeParameterName [tok [] "T" []]

/-- The action the rule produces for `ctxFooAny`. -/
def actFooAny : JsRuleAction :=
  { category := ActionCategory.quickFix
    applicability := Applicability.always
    message := "Remove the constraint."
    mutation :=
      { root := interfaceTree anyTy
        edits := [MutationOp.replaceElementDiscardTrivia nameT nameTTrimmed,
                  MutationOp.removeNode (clauseOf anyTy)] } }

/-- A malformed constraint clause whose type child (slot 1) is missing. -/
def clauseMissingTy : SyntaxElement :=
  SyntaxElement.node SyntaxKind.tsTypeConstraintClause [tok [] "extends" [" "]]

/-- A malformed constraint clause whose type child is an errored (bogus)
node that does not cast to `AnyTsType`. -/
def clauseErroredTy : SyntaxElement :=
  SyntaxElement.node SyntaxKind.tsTypeConstraintClause
    [tok [] "extends" [" "], SyntaxElement.node SyntaxKind.jsBogus [tok [] "%" []]]

/-- A context for the missing-child clause. -/
def ctxMissingTy : RuleContext :=
  { root := clauseMissingTy, clause := clauseMissingTy
    prevSibling := none, clauseOffset := 0 }

/-- A context for the errored-child clause. -/
def ctxErroredTy : RuleContext :=
  { root := clauseErroredTy, clause := clauseErroredTy
    prevSibling := none, clauseOffset := 0 }

/-- A matched clause that is the root of its snapshot, hence has no
previous sibling. -/
def ctxOrphan : RuleContext :=
  { root := clauseOf anyTy, clause := clauseOf anyTy
    prevSibling := none, clauseOffset := 0 }

/-- A token-free previous sibling: trimming its trailing trivia fails. -/
def emptyName : SyntaxElement := SyntaxElement.node SyntaxKind.tsTypeParameterName []

/-- A context whose previous sibling has no token at all. -/
def ctxEmptyPrev : RuleContext :=
  { root := clauseOf anyTy, clause := clauseOf anyTy
    prevSibling := some emptyName, clauseOffset := 0 }

/-- The shape-independent payload of an action: everything except the
batch's snapshot reference. -/
def actionData (a : JsRuleAction) :
    ActionCategory × Applicability × String × List MutationOp :=
  (a.category, a.applicability, a.message, a.mutation.edits)

/-- Per-tree uniformity check used for the six declaration shapes: exactly
one signalled context, whose clause, previous sibling, diagnostic
payload and action payload are the same fixed values. -/
def uniformCheck (ty : SyntaxElement) (t : SyntaxElement) : Bool :=
  ((NoUselessTypeConstraint.signals t).length == 1) &&
  (NoUselessTypeConstraint.signals t).all fun ctx =>
    (ctx.clause == clauseOf ty) &&
    (ctx.prevSibling == some nameT) &&
    ((NoUselessTypeConstraint.diagnostic ctx).map (fun d => (d.message, d.notes)) ==
      some ("Constraining a type parameter to any or unknown is useless.",
            ["All types are subtypes of any and unknown."])) &&
    ((NoUselessTypeConstraint.action ctx).map actionData ==
      some (ActionCategory.quickFix, Applicability.always, "Remove the constraint.",
            [MutationOp.replaceElementDiscardTrivia nameT nameTTrimmed,
             MutationOp.removeNode (clauseOf ty)]))

/-! Positional account of node identity.  Rowan batch operations reference
elements by node identity; in this embedding an identity is the node's
position (path of child indices) in the snapshot.  The universal
idempotence statement is made against this positional resolution of the
action's batch. -/

/-- The kind of an element's head: `none` for a token, the node kind for a
node. -/
def topShape : SyntaxElement → Option SyntaxKind
  | SyntaxElement.token _ => none
  | SyntaxElement.node k _ => some k

/-- The head kind of an element's slot-1 child (the slot `ty()` reads). -/
def childTyTop : SyntaxElement → Option SyntaxKind
  | SyntaxElement.token _ => none
  | SyntaxElement.node _ cs => (cs[1]?).bind topShape

/-- Does this element, viewed as a matched clause, make `run` signal?  A
constraint-clause node whose slot-1 child is a `TsAnyType` or
`TsUnknownType` node. -/
def isSignallingClause (e : SyntaxElement) : Bool :=
  (topShape e == some SyntaxKind.tsTypeConstraintClause) &&
  (childTyTop e == some SyntaxKind.tsAnyType ||
   childTyTop e == some SyntaxKind.tsUnknownType)

mutual

/-- Number of signalling constraint clauses in a subtree (the construct
count the rule's detect step signals on). -/
def sigCount : SyntaxElement → Nat
  | SyntaxElement.token _ => 0
  | SyntaxElement.node k cs =>
    (if isSignallingClause (SyntaxElement.node k cs) then 1 else 0) + sigCountList cs

def sigCountList : List SyntaxElement → Nat
  | [] => 0
  | c :: rest => sigCount c + sigCountList rest

end

/-- Signal count of the proper descendants of an element (excluding the
element's own signal, if any). -/
def sigCountInner : SyntaxElement → Nat
  | SyntaxElement.token _ => 0
  | SyntaxElement.node _ cs => sigCountList cs

/-- The subtree at a path of child indices; `none` when the path does not
exist in the tree. -/
def getAt : SyntaxElement → List Nat → Option SyntaxElement
  | e, [] => some e
  | SyntaxElement.token _, _ :: _ => none
  | SyntaxElement.node _ cs, a :: rest => (cs[a]?).bind fun c => getAt c rest

/-- Modelled from the spec: replace the subtree at a path, rebuilding every
ancestor along the path and sharing all unaffected subtrees; a path that
does not exist fails with `none`. -/
def SyntaxElement.replaceAt : SyntaxElement → List Nat → SyntaxElement → Option SyntaxElement
  | _, [], new => some new
  | SyntaxElement.token _, _ :: _, _ => none
  | SyntaxElement.node k cs, a :: rest, new =>
    (cs[a]?).bind fun c =>
      (SyntaxElement.replaceAt c rest new).map fun c2 =>
        SyntaxElement.node k (cs.set a c2)

/-- Modelled from the spec: remove the `i`-th child of the node at path
`base`, dropping the child's subtree with its trivia. -/
def removeChildAt (t : SyntaxElement) (base : List Nat) (i : Nat) :
    Option SyntaxElement :=
  (getAt t base).bind fun parent =>
    match parent with
    | SyntaxElement.token _ => none
    | SyntaxElement.node k cs =>
      if i < cs.length then
        SyntaxElement.replaceAt t base (SyntaxElement.node k (cs.eraseIdx i))
      else none

/-- Modelled from the spec: commit the rule's two-operation batch with its
operation targets resolved by node identity, i.e. by position: the
replace targets the child at position `(base, j)` (the previous
sibling), the removal the child at position `(base, i)` (the matched
clause); any other batch shape is not this rule's and yields `none`. -/
def commitFixAt (t : SyntaxElement) (base : List Nat) (j i : Nat) :
    List MutationOp → Option SyntaxElement
  | [MutationOp.replaceElementDiscardTrivia _ new, MutationOp.removeNode _] =>
    (SyntaxElement.replaceAt t (base ++ [j]) new).bind fun t1 =>
      removeChildAt t1 base i
  | _ => none

/-- The tree the fix produces from `interface Foo<T extends any> {}`. -/
def interfaceFixedTree : SyntaxElement :=
  SyntaxElement.node SyntaxKind.tsInterfaceDeclaration
    [tok [] "interface" [" "], ident "Foo" [],
     SyntaxElement.node SyntaxKind.tsTypeParameters
       [tok [] "<" [],
        SyntaxElement.node SyntaxKind.tsTypeParameterList
          [SyntaxElement.node SyntaxKind.tsTypeParameter [nameTTrimmed]],
        tok [] ">" [" "]],
     tok [] "\x7b" [], tok [] "\x7d" []]

/-! ## Claim theorems -/

/-- C1: for every matched type-constraint clause node, `run` produces a
signal if and only if the constraint's type is exactly the top type
(`any`) or the `unknown` type; in particular the query yields no signal
for `interface Foo<T> {}` (no constraint clause) and none for
`interface Foo<T extends SomeType> {}`. -/
theorem c1_signal_iff_top_or_unknown :
    (∀ ctx : RuleContext,
      NoUselessTypeConstraint.run ctx = some () ↔
        (∃ cs, NoUselessTypeConstraint.tyOf ctx.clause =
                 some (SyntaxElement.node SyntaxKind.tsAnyType cs) ∨
               NoUselessTypeConstraint.tyOf ctx.clause =
                 some (SyntaxElement.node SyntaxKind.tsUnknownType cs)))
    ∧ NoUselessTypeConstraint.signals interfaceNoConTree = []
    ∧ NoUselessTypeConstraint.signals (interfaceTree someTypeTy) = [] := by
  refine ⟨?_, by decide, by decide⟩
  intro ctx
  unfold NoUselessTypeConstraint.run
  cases h : NoUselessTypeConstraint.tyOf ctx.clause with
  | none => simp
  | some e =>
    cases e with
    | token t => simp
    | node k cs => cases k <;> simp

/-- C3: `run` is total and treats a missing or errored expected type child
(`ty()` yielding no castable node) as absence of signal, returning
`none` rather than failing. -/
theorem c3_run_absence_on_missing_child :
    ∀ ctx : RuleContext, NoUselessTypeConstraint.tyOf ctx.clause = none →
      NoUselessTypeConstraint.run ctx = none := by
  intro ctx h
  unfold NoUselessTypeConstraint.run
  rw [h]
  rfl

/-- C3 witness: a clause with a missing type child and a clause with an
errored type child both yield no signal. -/
theorem c3_witness :
    (NoUselessTypeConstraint.tyOf ctxMissingTy.clause = none ∧
      NoUselessTypeConstraint.run ctxMissingTy = none) ∧
    (NoUselessTypeConstraint.tyOf ctxErroredTy.clause = none ∧
      NoUselessTypeConstraint.run ctxErroredTy = none) :=
  ⟨⟨by decide, c3_run_absence_on_missing_child ctxMissingTy (by decide)⟩,
   ⟨by decide, c3_run_absence_on_missing_child ctxErroredTy (by decide)⟩⟩

/-- C4: a signalled clause with no previous sibling gets no action (`none`,
not an error or a corrupt edit), while its diagnostic is still emitted
independently of the action. -/
theorem c4_no_prev_sibling_no_action :
    ∀ ctx : RuleContext, ctx.prevSibling = none →
      NoUselessTypeConstraint.action ctx = none ∧
      ∃ d, NoUselessTypeConstraint.diagnostic ctx = some d := by
  intro ctx h
  constructor
  · simp [NoUselessTypeConstraint.action, h]
  · exact ⟨_, rfl⟩

/-- C4 witness: a clause that is the root of its snapshot has no previous
sibling; no action is offered but the diagnostic exists. -/
theorem c4_witness :
    NoUselessTypeConstraint.action ctxOrphan = none ∧
    ∃ d, NoUselessTypeConstraint.diagnostic ctxOrphan = some d :=
  c4_no_prev_sibling_no_action ctxOrphan rfl

/-- C10: when the previous sibling exists but trimming its trailing trivia
fails (`trim_trailing_trivia` returns `none`), the action step returns
`none` and no partial mutation batch is handed out. -/
theorem c10_trim_failure_no_action :
    ∀ (ctx : RuleContext) (prev : SyntaxElement), ctx.prevSibling = some prev →
      prev.trimTrailingTrivia = none →
      NoUselessTypeConstraint.action ctx = none := by
  intro ctx prev h ht
  simp [NoUselessTypeConstraint.action, h, ht]

/-- C10 witness: a token-free previous sibling cannot be trimmed, so the
action is absent. -/
theorem c10_witness :
    NoUselessTypeConstraint.action ctxEmptyPrev = none :=
  c10_trim_failure_no_action ctxEmptyPrev emptyName rfl (by decide)

/-- C2: every action produced for a clause with a previous sibling carries
exactly two edits in order — replace the previous sibling by its
trailing-trivia-trimmed copy, then remove the clause — and committing
that batch on `interface Foo<T extends any> {}` renders exactly
`interface Foo<T> {}`. -/
theorem c2_two_edits_and_committed_text :
    (∀ (ctx : RuleContext) (a : JsRuleAction),
      NoUselessTypeConstraint.action ctx = some a →
        ∃ prev trimmed, ctx.prevSibling = some prev ∧
          prev.trimTrailingTrivia = some trimmed ∧
          a.mutation.edits =
            [MutationOp.replaceElementDiscardTrivia prev trimmed,
             MutationOp.removeNode ctx.clause])
    ∧ ((NoUselessTypeConstraint.action ctxFooAny).bind
         (fun a => a.mutation.commit)).map SyntaxElement.render =
        some "interface Foo<T> {}" := by
  refine ⟨?_, by decide⟩
  intro ctx a h
  rcases ctx with ⟨r, c, p, o⟩
  unfold NoUselessTypeConstraint.action at h
  cases p with
  | none => simp at h
  | some prev =>
    dsimp only at h
    cases ht : prev.trimTrailingTrivia with
    | none => rw [ht] at h; simp at h
    | some trimmed =>
      rw [ht] at h
      dsimp only at h
      refine ⟨prev, trimmed, rfl, ht, ?_⟩
      injection h with h2
      subst h2
      simp [BatchMutation.begin, BatchMutation.replaceElementDiscardTrivia,
            BatchMutation.removeNode]

/-- C2 witness: the concrete action for `interface Foo<T extends any> {}`
has the two edits in order. -/
theorem c2_witness :
    ∃ prev trimmed, ctxFooAny.prevSibling = some prev ∧
      prev.trimTrailingTrivia = some trimmed ∧
      actFooAny.mutation.edits =
        [MutationOp.replaceElementDiscardTrivia prev trimmed,
         MutationOp.removeNode ctxFooAny.clause] :=
  c2_two_edits_and_committed_text.1 ctxFooAny actFooAny (by decide)

/-- A successful indexed lookup is within bounds. -/
theorem getElem?_some_lt {α : Type} (l : List α) (i : Nat) (x : α)
    (h : l[i]? = some x) : i < l.length :=
  (List.getElem?_eq_some.mp h).1

/-- `run` signals exactly on signalling clauses (the detect step read as a
predicate on the matched node). -/
theorem run_isSome_eq_isSignalling :
    ∀ ctx : RuleContext,
      (NoUselessTypeConstraint.run ctx).isSome = isSignallingClause ctx.clause := by
  intro ctx
  cases hc : ctx.clause with
  | token t =>
    simp [NoUselessTypeConstraint.run, NoUselessTypeConstraint.tyOf, hc,
          isSignallingClause, topShape, childTyTop]
  | node k cs =>
    cases k <;>
      simp only [NoUselessTypeConstraint.run, NoUselessTypeConstraint.tyOf, hc,
                 isSignallingClause, topShape, childTyTop] <;>
      try simp
    cases h1 : cs[1]? with
    | none => simp [h1]
    | some c =>
      cases c with
      | token t2 => simp [h1, topShape]
      | node k2 cs2 =>
        cases k2 <;>
          simp [h1, NoUselessTypeConstraint.isAnyTsTypeKind, topShape]

/-- The signalling test of a node depends only on its kind and the head
kinds of its children. -/
theorem isSignalling_eq_of_shape (k : SyntaxKind) (cs cs2 : List SyntaxElement)
    (hmap : List.map topShape cs2 = List.map topShape cs) :
    isSignallingClause (SyntaxElement.node k cs2) =
      isSignallingClause (SyntaxElement.node k cs) := by
  have h1 : (List.map topShape cs2)[1]? = (List.map topShape cs)[1]? := by rw [hmap]
  rw [List.getElem?_map, List.getElem?_map] at h1
  have h2 : childTyTop (SyntaxElement.node k cs2) = childTyTop (SyntaxElement.node k cs) := by
    simp only [childTyTop]
    cases ha : cs[1]? <;> cases hb : cs2[1]? <;> simp_all
  unfold isSignallingClause
  rw [h2]
  simp [topShape]

mutual

/-- Trimming trailing trivia preserves the signal count and the head kind
(it only empties the last token's trailing trivia). -/
theorem trim_sigCount : ∀ (e e2 : SyntaxElement),
    SyntaxElement.trimTrailingTrivia e = some e2 →
    sigCount e2 = sigCount e ∧ topShape e2 = topShape e
  | SyntaxElement.token t, e2, h => by
    simp [SyntaxElement.trimTrailingTrivia] at h
    subst h
    exact ⟨rfl, rfl⟩
  | SyntaxElement.node k cs, e2, h => by
    simp only [SyntaxElement.trimTrailingTrivia, Option.map_eq_some'] at h
    obtain ⟨cs2, h1, h2⟩ := h
    obtain ⟨hcnt, hmap⟩ := trimList_sigCount cs cs2 h1
    subst h2
    refine ⟨?_, rfl⟩
    simp only [sigCount]
    rw [hcnt, isSignalling_eq_of_shape k cs cs2 hmap]

theorem trimList_sigCount : ∀ (cs cs2 : List SyntaxElement),
    SyntaxElement.trimTrailingTriviaList cs = some cs2 →
    sigCountList cs2 = sigCountList cs ∧
      List.map topShape cs2 = List.map topShape cs
  | [], cs2, h => by simp [SyntaxElement.trimTrailingTriviaList] at h
  | c :: rest, cs2, h => by
    rw [SyntaxElement.trimTrailingTriviaList] at h
    cases hr : SyntaxElement.trimTrailingTriviaList rest with
    | some rest2 =>
      rw [hr] at h
      obtain ⟨hcnt, hmap⟩ := trimList_sigCount rest rest2 hr
      cases h
      constructor
      · simp only [sigCountList]; omega
      · simp [hmap]
    | none =>
      rw [hr] at h
      simp only [Option.map_eq_some'] at h
      obtain ⟨c2, h1, h2⟩ := h
      obtain ⟨hcnt, htop⟩ := trim_sigCount c c2 h1
      subst h2
      constructor
      · simp only [sigCountList]; omega
      · simp [htop]

end



/-- Replacing a child by one with the same head kind preserves the list of
head kinds. -/
theorem map_topShape_set : ∀ (cs : List SyntaxElement) (i : Nat)
    (c c2 : SyntaxElement), cs[i]? = some c → topShape c2 = topShape c →
    List.map topShape (cs.set i c2) = List.map topShape cs := by
  intro cs
  induction cs with
  | nil => intro i c c2 h _; simp at h
  | cons d ds ih =>
    intro i c c2 h htop
    cases i with
    | zero =>
      simp only [List.getElem?_cons_zero, Option.some.injEq] at h
      subst h
      simp [List.set, htop]
    | succ n =>
      simp only [List.getElem?_cons_succ] at h
      simp [List.set, ih n c c2 h htop]

/-- Swapping a child for another swaps their contributions to the signal
count of a list. -/
theorem sigCountList_set : ∀ (cs : List SyntaxElement) (i : Nat)
    (c c2 : SyntaxElement), cs[i]? = some c →
    sigCountList (cs.set i c2) + sigCount c = sigCountList cs + sigCount c2 := by
  intro cs
  induction cs with
  | nil => intro i c c2 h; simp at h
  | cons d ds ih =>
    intro i c c2 h
    cases i with
    | zero =>
      simp only [List.getElem?_cons_zero, Option.some.injEq] at h
      subst h
      simp only [List.set, sigCountList]
      omega
    | succ n =>
      simp only [List.getElem?_cons_succ] at h
      have := ih n c c2 h
      simp only [List.set, sigCountList]
      omega

/-- Erasing a child removes exactly its contribution to the signal count of
a list. -/
theorem sigCountList_eraseIdx : ∀ (cs : List SyntaxElement) (i : Nat)
    (c : SyntaxElement), cs[i]? = some c →
    sigCountList (cs.eraseIdx i) + sigCount c = sigCountList cs := by
  intro cs
  induction cs with
  | nil => intro i c h; simp at h
  | cons d ds ih =>
    intro i c h
    cases i with
    | zero =>
      simp only [List.getElem?_cons_zero, Option.some.injEq] at h
      subst h
      simp only [List.eraseIdx, sigCountList]
      omega
    | succ n =>
      simp only [List.getElem?_cons_succ] at h
      have := ih n c h
      simp only [List.eraseIdx, sigCountList]
      omega

/-- Replacing the subtree at a path by one of the same head kind conserves
the signal count up to swapping the two subtrees' counts, and keeps the
root's head kind. -/
theorem replaceAt_sigCount : ∀ (q : List Nat) (t old new t2 : SyntaxElement),
    getAt t q = some old →
    SyntaxElement.replaceAt t q new = some t2 →
    topShape new = topShape old →
    sigCount t2 + sigCount old = sigCount t + sigCount new ∧
      topShape t2 = topShape t := by
  intro q
  induction q with
  | nil =>
    intro t old new t2 h1 h2 h3
    simp only [getAt, Option.some.injEq] at h1
    simp only [SyntaxElement.replaceAt, Option.some.injEq] at h2
    subst h1
    subst h2
    exact ⟨by omega, h3⟩
  | cons a q ih =>
    intro t old new t2 h1 h2 h3
    cases t with
    | token t0 => simp [getAt] at h1
    | node k cs =>
      simp only [getAt] at h1
      simp only [SyntaxElement.replaceAt] at h2
      cases hc : cs[a]? with
      | none => rw [hc] at h1; simp at h1
      | some c =>
        rw [hc] at h1 h2
        simp only [Option.some_bind] at h1 h2
        simp only [Option.map_eq_some'] at h2
        obtain ⟨c2, hr, ht2⟩ := h2
        obtain ⟨hcnt, htop⟩ := ih c old new c2 h1 hr h3
        subst ht2
        have hmap := map_topShape_set cs a c c2 hc htop
        have hsig := isSignalling_eq_of_shape k cs (cs.set a c2) hmap
        have hsum := sigCountList_set cs a c c2 hc
        constructor
        · simp only [sigCount]
          rw [hsig]
          cases isSignallingClause (SyntaxElement.node k cs) <;> simp <;> omega
        · rfl

/-- After a successful replacement, the replaced path holds the new
subtree. -/
theorem getAt_replaceAt_self : ∀ (q : List Nat) (t P t1 : SyntaxElement),
    SyntaxElement.replaceAt t q P = some t1 → getAt t1 q = some P := by
  intro q
  induction q with
  | nil =>
    intro t P t1 h
    simp only [SyntaxElement.replaceAt, Option.some.injEq] at h
    subst h
    simp [getAt]
  | cons a q ih =>
    intro t P t1 h
    cases t with
    | token t0 => simp [SyntaxElement.replaceAt] at h
    | node k cs =>
      simp only [SyntaxElement.replaceAt] at h
      cases hc : cs[a]? with
      | none => rw [hc] at h; simp at h
      | some c =>
        rw [hc] at h
        simp only [Option.some_bind, Option.map_eq_some'] at h
        obtain ⟨c2, hr, ht⟩ := h
        subst ht
        have ha : a < cs.length := getElem?_some_lt cs a c hc
        simp only [getAt]
        rw [List.getElem?_set_self (by simpa using ha)]
        simp only [Option.some_bind]
        exact ih c P c2 hr

/-- A second replacement along the same path acts on the original snapshot:
replacing twice at a path equals replacing once with the second value. -/
theorem replaceAt_twice : ∀ (q : List Nat) (t P t1 Q : SyntaxElement),
    SyntaxElement.replaceAt t q P = some t1 →
    SyntaxElement.replaceAt t1 q Q = SyntaxElement.replaceAt t q Q := by
  intro q
  induction q with
  | nil =>
    intro t P t1 Q h
    simp [SyntaxElement.replaceAt]
  | cons a q ih =>
    intro t P t1 Q h
    cases t with
    | token t0 => simp [SyntaxElement.replaceAt] at h
    | node k cs =>
      simp only [SyntaxElement.replaceAt] at h
      cases hc : cs[a]? with
      | none => rw [hc] at h; simp at h
      | some c =>
        rw [hc] at h
        simp only [Option.some_bind, Option.map_eq_some'] at h
        obtain ⟨c2, hr, ht⟩ := h
        subst ht
        have ha : a < cs.length := getElem?_some_lt cs a c hc
        simp only [SyntaxElement.replaceAt]
        rw [hc, List.getElem?_set_self (by simpa using ha)]
        simp only [Option.some_bind]
        rw [ih c P c2 Q hr]
        cases SyntaxElement.replaceAt c q Q with
        | none => rfl
        | some d => simp [List.set_set]

/-- Replacing the `j`-th child of the node at path `base` equals replacing
that node by a copy with the child swapped. -/
theorem replaceAt_append : ∀ (base : List Nat) (t : SyntaxElement)
    (k : SyntaxKind) (cs : List SyntaxElement) (j : Nat) (x : SyntaxElement),
    getAt t base = some (SyntaxElement.node k cs) → j < cs.length →
    SyntaxElement.replaceAt t (base ++ [j]) x =
      SyntaxElement.replaceAt t base (SyntaxElement.node k (cs.set j x)) := by
  intro base
  induction base with
  | nil =>
    intro t k cs j x h hj
    simp only [getAt, Option.some.injEq] at h
    subst h
    simp only [List.nil_append, SyntaxElement.replaceAt]
    rw [List.getElem?_eq_getElem hj]
    simp [SyntaxElement.replaceAt]
  | cons a base ih =>
    intro t k cs j x h hj
    cases t with
    | token t0 => simp [getAt] at h
    | node k0 cs0 =>
      simp only [getAt] at h
      cases hc : cs0[a]? with
      | none => rw [hc] at h; simp at h
      | some c =>
        rw [hc] at h
        simp only [Option.some_bind] at h
        simp only [List.cons_append, SyntaxElement.replaceAt]
        rw [hc]
        simp only [Option.some_bind, List.append_eq]
        rw [ih c k cs j x h hj]

mutual

/-- The query-and-detect pipeline restricted to the strict descendants of an
element signals exactly `sigCountInner` many times. -/
theorem collectFrom_sig_len : ∀ (r : SyntaxElement) (o : Nat) (e : SyntaxElement),
    ((collectFrom r o e).filter fun ctx =>
        (NoUselessTypeConstraint.run ctx).isSome).length = sigCountInner e
  | r, o, SyntaxElement.token t => by
    simp [collectFrom, sigCountInner]
  | r, o, SyntaxElement.node k cs => by
    simp only [collectFrom, sigCountInner]
    exact collectChildren_sig_len r o none cs

/-- The query-and-detect pipeline over a child list signals exactly
`sigCountList` many times. -/
theorem collectChildren_sig_len : ∀ (r : SyntaxElement) (o : Nat)
    (p : Option SyntaxElement) (cs : List SyntaxElement),
    ((collectChildren r o p cs).filter fun ctx =>
        (NoUselessTypeConstraint.run ctx).isSome).length = sigCountList cs
  | r, o, p, [] => by simp [collectChildren, sigCountList]
  | r, o, p, c :: rest => by
    simp only [collectChildren, List.filter_append, List.length_append]
    rw [collectFrom_sig_len r o c,
        collectChildren_sig_len r (o + c.fullWidth)
          (if c.isNode then some c else p) rest]
    simp only [sigCountList]
    cases c with
    | token t0 => simp [sigCount, sigCountInner, isSignallingClause, topShape]
    | node k2 cs2 =>
      have hb := run_isSome_eq_isSignalling
        { root := r, clause := SyntaxElement.node k2 cs2,
          prevSibling := p, clauseOffset := o }
      cases k2 <;>
        simp_all [sigCount, sigCountInner, isSignallingClause, topShape,
                  childTyTop, List.filter_cons]
      split <;> simp_all

end

/-- The number of signalled contexts of a tree is its signal count. -/
theorem signals_length_eq_sigCount : ∀ root : SyntaxElement,
    (NoUselessTypeConstraint.signals root).length = sigCount root := by
  intro root
  unfold NoUselessTypeConstraint.signals collectCtxs
  rw [List.filter_append, List.length_append, collectFrom_sig_len]
  cases root with
  | token t => simp [sigCount, sigCountInner, isSignallingClause, topShape]
  | node k cs =>
    have hb := run_isSome_eq_isSignalling
      { root := SyntaxElement.node k cs, clause := SyntaxElement.node k cs,
        prevSibling := none, clauseOffset := 0 }
    cases k <;>
      simp_all [sigCount, sigCountInner, isSignallingClause, topShape,
                childTyTop, List.filter_cons]
    split <;> simp_all

/-- C5: applying the rule's action (committing its two-edit batch with the
batch's node references resolved by position, which is what node
identity is in this embedding) to any tree, then re-running the detect
step over the resulting tree, yields no further signal for the construct
that was fixed: the committed tree's signalled constructs are exactly
the original ones outside the removed clause subtree, so the signal
count drops by the fixed clause's own count (at least one).  The
hypotheses place the matched clause and its previous sibling as distinct
children `i` and `j` of the parent node at path `base` — a clause's
parent (a type parameter) is never itself a constraint clause — and
require that the rule signalled and the action's batch committed. -/
theorem c5_fix_idempotent_universal :
    ∀ (root prev clause trimmed t2 : SyntaxElement) (a : JsRuleAction)
      (base : List Nat) (j i : Nat) (k : SyntaxKind)
      (cs : List SyntaxElement) (off : Nat),
      getAt root base = some (SyntaxElement.node k cs) →
      k ≠ SyntaxKind.tsTypeConstraintClause →
      cs[j]? = some prev →
      cs[i]? = some clause →
      j ≠ i →
      NoUselessTypeConstraint.run
        { root := root, clause := clause, prevSibling := some prev,
          clauseOffset := off } = some () →
      NoUselessTypeConstraint.action
        { root := root, clause := clause, prevSibling := some prev,
          clauseOffset := off } = some a →
      prev.trimTrailingTrivia = some trimmed →
      commitFixAt root base j i a.mutation.edits = some t2 →
      (NoUselessTypeConstraint.signals t2).length + sigCount clause =
          (NoUselessTypeConstraint.signals root).length ∧
        (NoUselessTypeConstraint.signals t2).length <
          (NoUselessTypeConstraint.signals root).length := by
  intro root prev clause trimmed t2 a base j i k cs off
  intro hpar hk hj hi hne hrun hact htrim hcommit
  have hjlen : j < cs.length := getElem?_some_lt cs j prev hj
  have hilen : i < cs.length := getElem?_some_lt cs i clause hi
  have hedits : a.mutation.edits =
      [MutationOp.replaceElementDiscardTrivia prev trimmed,
       MutationOp.removeNode clause] := by
    unfold NoUselessTypeConstraint.action at hact
    dsimp only at hact
    rw [htrim] at hact
    dsimp only at hact
    injection hact with h2
    subst h2
    simp [BatchMutation.begin, BatchMutation.replaceElementDiscardTrivia,
          BatchMutation.removeNode]
  rw [hedits] at hcommit
  simp only [commitFixAt] at hcommit
  rw [replaceAt_append base root k cs j trimmed hpar hjlen] at hcommit
  cases h1 : SyntaxElement.replaceAt root base
      (SyntaxElement.node k (cs.set j trimmed)) with
  | none => rw [h1] at hcommit; simp at hcommit
  | some t1 =>
    rw [h1] at hcommit
    simp only [Option.some_bind] at hcommit
    unfold removeChildAt at hcommit
    rw [getAt_replaceAt_self base root (SyntaxElement.node k (cs.set j trimmed))
          t1 h1] at hcommit
    simp only [Option.some_bind] at hcommit
    rw [if_pos (show i < (cs.set j trimmed).length by
          rw [List.length_set]; exact hilen)] at hcommit
    rw [replaceAt_twice base root (SyntaxElement.node k (cs.set j trimmed)) t1
          (SyntaxElement.node k ((cs.set j trimmed).eraseIdx i)) h1] at hcommit
    obtain ⟨hcnt, htop⟩ := replaceAt_sigCount base root (SyntaxElement.node k cs)
      (SyntaxElement.node k ((cs.set j trimmed).eraseIdx i)) t2 hpar hcommit rfl
    have htrimc := (trim_sigCount prev trimmed htrim).1
    have hset := sigCountList_set cs j prev trimmed hj
    have hgi : (cs.set j trimmed)[i]? = some clause := by
      rw [List.getElem?_set_ne hne]; exact hi
    have herase := sigCountList_eraseIdx (cs.set j trimmed) i clause hgi
    have hkb : (some k == some SyntaxKind.tsTypeConstraintClause) = false := by
      cases hb : (some k == some SyntaxKind.tsTypeConstraintClause) with
      | false => rfl
      | true => exact absurd (Option.some.inj (beq_iff_eq.mp hb)) hk
    have hsig1 : isSignallingClause (SyntaxElement.node k cs) = false := by
      unfold isSignallingClause
      rw [show topShape (SyntaxElement.node k cs) = some k from rfl, hkb,
          Bool.false_and]
    have hsig2 : isSignallingClause
        (SyntaxElement.node k ((cs.set j trimmed).eraseIdx i)) = false := by
      unfold isSignallingClause
      rw [show topShape (SyntaxElement.node k ((cs.set j trimmed).eraseIdx i)) =
            some k from rfl, hkb, Bool.false_and]
    have hcP : sigCount (SyntaxElement.node k cs) = sigCountList cs := by
      simp [sigCount, hsig1]
    have hcP2 : sigCount (SyntaxElement.node k ((cs.set j trimmed).eraseIdx i)) =
        sigCountList ((cs.set j trimmed).eraseIdx i) := by
      simp [sigCount, hsig2]
    have hbridge := run_isSome_eq_isSignalling
      { root := root, clause := clause, prevSibling := some prev,
        clauseOffset := off }
    rw [hrun] at hbridge
    have hsigc : isSignallingClause clause = true := by simpa using hbridge.symm
    have hc1 : 1 ≤ sigCount clause := by
      cases clause with
      | token t => simp [isSignallingClause, topShape] at hsigc
      | node kc csc =>
        simp [sigCount, hsigc]
    have hs1 := signals_length_eq_sigCount root
    have hs2 := signals_length_eq_sigCount t2
    constructor
    · omega
    · omega

/-- C5 witness: the worked example `interface Foo<T extends any> {}` — the
parent type parameter sits at path `[2, 1, 0]` with the name node at
child 0 and the clause at child 1; committing the action's batch yields
the fixed tree, whose signal count is one less, namely zero. -/
theorem c5_witness :
    (NoUselessTypeConstraint.signals interfaceFixedTree).length +
        sigCount (clauseOf anyTy) =
      (NoUselessTypeConstraint.signals (interfaceTree anyTy)).length ∧
    (NoUselessTypeConstraint.signals interfaceFixedTree).length <
      (NoUselessTypeConstraint.signals (interfaceTree anyTy)).length :=
  c5_fix_idempotent_universal (interfaceTree anyTy) nameT (clauseOf anyTy)
    nameTTrimmed interfaceFixedTree actFooAny [2, 1, 0] 0 1
    SyntaxKind.tsTypeParameter [nameT, clauseOf anyTy] 16
    (by decide) (by decide) (by decide) (by decide) (by decide)
    (by decide) (by decide) (by decide) (by decide)

/-- C6: every action the rule returns is rated `Applicability::Always` with
category `ActionCategory::QuickFix`, and the rule's declared fix kind is
`FixKind::Safe`. -/
theorem c6_always_safe_quickfix :
    (∀ (ctx : RuleContext) (a : JsRuleAction),
      NoUselessTypeConstraint.action ctx = some a →
        a.applicability = Applicability.always ∧
        a.category = ActionCategory.quickFix)
    ∧ NoUselessTypeConstraint.metadata.fixKind = FixKind.safe := by
  refine ⟨?_, rfl⟩
  intro ctx a h
  rcases ctx with ⟨r, c, p, o⟩
  unfold NoUselessTypeConstraint.action at h
  cases p with
  | none => simp at h
  | some prev =>
    dsimp only at h
    cases ht : prev.trimTrailingTrivia with
    | none => rw [ht] at h; simp at h
    | some trimmed =>
      rw [ht] at h
      dsimp only at h
      injection h with h2
      subst h2
      exact ⟨rfl, rfl⟩

/-- C6 witness: the concrete action for `interface Foo<T extends any> {}`
is always-applicable and a quick fix. -/
theorem c6_witness :
    actFooAny.applicability = Applicability.always ∧
    actFooAny.category = ActionCategory.quickFix :=
  c6_always_safe_quickfix.1 ctxFooAny actFooAny (by decide)

/-- C7: the rule's logic is uniform across declaration shapes — the signal
depends only on the matched clause, the diagnostic only on the clause
and its offset, the action payload only on the clause and its previous
sibling — and on all six worked shapes (interface, type alias, class,
method, arrow function, function), with both the top type and the
unknown type, the query yields exactly one signalled context with the
same clause, previous sibling, diagnostic payload and action payload. -/
theorem c7_uniform_across_shapes :
    (∀ ctx1 ctx2 : RuleContext, ctx1.clause = ctx2.clause →
      (NoUselessTypeConstraint.run ctx1 = NoUselessTypeConstraint.run ctx2 ∧
       (ctx1.clauseOffset = ctx2.clauseOffset →
         NoUselessTypeConstraint.diagnostic ctx1 =
           NoUselessTypeConstraint.diagnostic ctx2) ∧
       (ctx1.prevSibling = ctx2.prevSibling →
         (NoUselessTypeConstraint.action ctx1).map actionData =
           (NoUselessTypeConstraint.action ctx2).map actionData)))
    ∧ ((shapeTrees anyTy).all (uniformCheck anyTy) &&
       (shapeTrees unknownTy).all (uniformCheck unknownTy)) = true := by
  refine ⟨?_, by decide⟩
  intro ctx1 ctx2 hc
  rcases ctx1 with ⟨r1, c1, p1, o1⟩
  rcases ctx2 with ⟨r2, c2, p2, o2⟩
  dsimp at hc
  subst hc
  refine ⟨rfl, ?_, ?_⟩
  · intro ho
    dsimp at ho
    subst ho
    rfl
  · intro hp
    dsimp at hp
    subst hp
    unfold NoUselessTypeConstraint.action
    cases p1 with
    | none => rfl
    | some prev =>
      dsimp only
      cases prev.trimTrailingTrivia with
      | none => rfl
      | some trimmed => rfl

/-- C7 witness: the interface shape and the arrow-function shape share the
clause, previous sibling and offset, and get identical signal,
diagnostic and action payload. -/
theorem c7_witness :
    NoUselessTypeConstraint.run ctxFooAny = NoUselessTypeConstraint.run ctxArrowAny ∧
    NoUselessTypeConstraint.diagnostic ctxFooAny =
      NoUselessTypeConstraint.diagnostic ctxArrowAny ∧
    (NoUselessTypeConstraint.action ctxFooAny).map actionData =
      (NoUselessTypeConstraint.action ctxArrowAny).map actionData := by
  obtain ⟨h1, h2, h3⟩ := c7_uniform_across_shapes.1 ctxFooAny ctxArrowAny rfl
  exact ⟨h1, h2 rfl, h3 rfl⟩

/-- C8: the three steps are deterministic functions of the matched node's
context — re-invoking them on the same context returns equal results —
and they read no other part of the snapshot: replacing the root (the
rest of the shared tree) changes neither the signal, nor the diagnostic,
nor the action payload beyond the batch's snapshot reference.  In the
embedding all functions are pure values, so no invocation mutates the
tree or any shared state. -/
theorem c8_pure_deterministic :
    ∀ ctx : RuleContext,
      (NoUselessTypeConstraint.run ctx = NoUselessTypeConstraint.run ctx ∧
       NoUselessTypeConstraint.diagnostic ctx = NoUselessTypeConstraint.diagnostic ctx ∧
       NoUselessTypeConstraint.action ctx = NoUselessTypeConstraint.action ctx) ∧
      ∀ r2 : SyntaxElement,
        NoUselessTypeConstraint.run { ctx with root := r2 } =
          NoUselessTypeConstraint.run ctx ∧
        NoUselessTypeConstraint.diagnostic { ctx with root := r2 } =
          NoUselessTypeConstraint.diagnostic ctx ∧
        (NoUselessTypeConstraint.action { ctx with root := r2 }).map actionData =
          (NoUselessTypeConstraint.action ctx).map actionData := by
  intro ctx
  rcases ctx with ⟨r, c, p, o⟩
  refine ⟨⟨rfl, rfl, rfl⟩, ?_⟩
  intro r2
  refine ⟨rfl, rfl, ?_⟩
  unfold NoUselessTypeConstraint.action
  cases p with
  | none => rfl
  | some prev =>
    dsimp only
    cases prev.trimTrailingTrivia with
    | none => rfl
    | some trimmed => rfl

/-- C9: the diagnostic step always returns a diagnostic, located at the
clause's trimmed text range, with the fixed message about constraining
to `any` or `unknown` and exactly one note about subtyping; on
`interface Foo<T extends any> {}` the query yields exactly the expected
context and the range is `[16, 27)`, the trimmed extent of
`extends any`. -/
theorem c9_diagnostic_shape :
    (∀ ctx : RuleContext,
      NoUselessTypeConstraint.diagnostic ctx =
        some { category := "lint/complexity/noUselessTypeConstraint"
               range := SyntaxElement.textTrimmedRange ctx.clauseOffset ctx.clause
               message := "Constraining a type parameter to any or unknown is useless."
               notes := ["All types are subtypes of any and unknown."] })
    ∧ NoUselessTypeConstraint.signals (interfaceTree anyTy) = [ctxFooAny]
    ∧ (NoUselessTypeConstraint.diagnostic ctxFooAny).map (fun d => d.range) =
        some (16, 27)
    ∧ (NoUselessTypeConstraint.diagnostic ctxFooAny).map (fun d => d.notes.length) =
        some 1 :=
  ⟨fun _ => rfl, by decide, by decide, by decide⟩
